import Mathlib

/-!
Verification of the TriviaApp backend core (`src/backend/game_state.py`,
`src/backend/question_manager.py`, `src/backend/websocket_manager.py`)
against its natural-language specification.

The Python code is shallowly embedded as pure Lean functions:

* A `GameSession` is a record; each `GameStateManager` method becomes a
  function `GameSession → ... → Except GameError α × GameSession` returning
  both the result (or error) and the post-state, so that "a failing call
  leaves the session unchanged" is a provable statement rather than true by
  construction.  Python raises `ValueError` with a message; errors are an
  inductive type whose constructors correspond to the individual `raise`
  sites (the message strings are kept where status-gating is concerned).
* Python's `Dict[str, Team]` (insertion-ordered, keyed by `team_id`) is a
  `List Team` extended only with fresh ids; lookups are `List.find?` on the
  id.  `List Answer` is kept as in the source.
* Wall-clock timestamps (`time.time()`, `joined_at`, `submitted_at`,
  `question_started_at`) are omitted: no verified claim depends on them.
* The registry indirection (`GameStateManager.games` / `get_game`) is
  dropped: every operation acts on one existing session, the case all the
  claims quantify over.  `uuid.uuid4()` in `add_team` is made a parameter.
-/

namespace TriviaApp

/-- `GameStatus` from `game_state.py`. -/
inductive GameStatus
  | waiting
  | in_progress
  | question_active
  | question_closed
  | finished
deriving DecidableEq, Repr

/-- `Team` dataclass (timestamp omitted). A fresh team gets `score := 0`,
mirroring the dataclass default `score: int = 0`. -/
structure Team where
  name : String
  team_id : String
  score : Int
deriving DecidableEq, Repr

/-- `Answer` dataclass (timestamp omitted). Defaults mirror the dataclass:
`is_correct = None`, `points_awarded = 0`. -/
structure Answer where
  team_id : String
  question_round : Int
  question_num : Int
  answer_text : String
  is_correct : Option Bool
  points_awarded : Int
deriving DecidableEq, Repr

/-- `Question` dataclass from `question_manager.py` (validation of its
`__post_init__` is modelled separately in `mkQuestion`). -/
structure Question where
  round_num : Int
  question_num : Int
  question : String
  answer : String
deriving DecidableEq, Repr

/-- `GameSession` dataclass (timestamps omitted). -/
structure GameSession where
  game_id : String
  csv_file_path : String
  admin_password : String
  status : GameStatus
  teams : List Team
  current_round : Int
  current_question : Int
  answers : List Answer
deriving DecidableEq, Repr

/-- One constructor per `raise` site of `game_state.py` that the claims can
reach.  Status-gating `ValueError`s keep their message and are classified as
the spec's `InvalidState`; `invalidAdminPassword` is the spec's
`Unauthorized`; `answerNotFound` the spec's `NotFound`. -/
inductive GameError
  | invalidAdminPassword
  | invalidState (msg : String)
  | teamNameExists (name : String)
  | emptyTeamName
  | noTeams
  | teamNotFoundInGame
  | duplicateAnswer
  | answerNotFound
  | noQuestionAtCursor (round_num question_num : Int)
  | teamKeyError
deriving DecidableEq, Repr

/-- Python `str.strip()`: drop leading and trailing whitespace
(space/tab/CR/LF; Python's full whitespace set also has rarer control
characters, which no test data uses).  Written on the character list so the
kernel can evaluate it, unlike `String.trim`. -/
def pyStrip (s : String) : String :=
  ⟨((s.data.dropWhile Char.isWhitespace).reverse.dropWhile Char.isWhitespace).reverse⟩

/-- Python `str.lower()` (ASCII case mapping, as `Char.toLower`). -/
def pyLower (s : String) : String := ⟨s.data.map Char.toLower⟩

/-- Digit value of a character, if it is `0`-`9`. -/
def pyDigit? (c : Char) : Option Nat :=
  if c.isDigit then some (c.toNat - 48) else none

/-- Accumulate decimal digits; any non-digit makes the parse fail. -/
def pyNatAux : List Char → Nat → Option Nat
  | [], acc => some acc
  | c :: cs, acc =>
      match pyDigit? c with
      | none => none
      | some d => pyNatAux cs (acc * 10 + d)

/-- Parse a non-empty all-digit list. -/
def pyNat : List Char → Option Nat
  | [] => none
  | l => pyNatAux l 0

/-- Python `int(s)` on an already-stripped string: optional sign then
decimal digits; `none` when unparsable (Python would raise `ValueError`). -/
def pyInt (s : String) : Option Int :=
  match s.data with
  | '-' :: rest => (pyNat rest).map (fun n => -(n : Int))
  | '+' :: rest => (pyNat rest).map (fun n => (n : Int))
  | l => (pyNat l).map (fun n => (n : Int))

/-- Key equality on answers as in `GameStateManager._get_team_answer`. -/
def answerKeyMatch (team_id : String) (round_num question_num : Int) (a : Answer) : Bool :=
  a.team_id == team_id && a.question_round == round_num && a.question_num == question_num

/-- `GameStateManager._get_team_answer`: first answer matching the key. -/
def getTeamAnswer (answers : List Answer) (team_id : String) (round_num question_num : Int) :
    Option Answer :=
  answers.find? (answerKeyMatch team_id round_num question_num)

/-- In-place mutation of the first key-matching answer (Python mutates the
object returned by `_get_team_answer`, which is the first match). -/
def updateFirstAnswer (team_id : String) (round_num question_num : Int) (f : Answer → Answer) :
    List Answer → List Answer
  | [] => []
  | a :: rest =>
      if answerKeyMatch team_id round_num question_num a then f a :: rest
      else a :: updateFirstAnswer team_id round_num question_num f rest

/-- Lookup in the `teams` dict by key. -/
def findTeam (teams : List Team) (team_id : String) : Option Team :=
  teams.find? (fun t => t.team_id == team_id)

/-- In-place mutation of the team stored under `team_id`
(`game.teams[team_id].score += points`). -/
def updateFirstTeam (team_id : String) (f : Team → Team) : List Team → List Team
  | [] => []
  | t :: rest =>
      if t.team_id == team_id then f t :: rest
      else t :: updateFirstTeam team_id f rest

/-- `QuestionManager.get_question_by_round_and_num` (first match in file
order). -/
def get_question_by_round_and_num (qs : List Question) (round_num question_num : Int) :
    Option Question :=
  qs.find? (fun q => q.round_num == round_num && q.question_num == question_num)

/-- `QuestionManager.get_questions_for_round` (file order preserved). -/
def get_questions_for_round (qs : List Question) (round_num : Int) : List Question :=
  qs.filter (fun q => q.round_num == round_num)

/-- Insertion into a sorted list, used to model Python's `sorted`. -/
def insertSorted (x : Int) : List Int → List Int
  | [] => [x]
  | y :: ys => if x ≤ y then x :: y :: ys else y :: insertSorted x ys

/-- `sorted(...)` on a list of ints. -/
def sortInts (l : List Int) : List Int := l.foldr insertSorted []

/-- `QuestionManager.get_rounds_for_game`: `sorted(list(set(...)))`. -/
def get_rounds_for_game (qs : List Question) : List Int :=
  sortInts ((qs.map (fun q => q.round_num)).dedup)

/-- `GameStateManager.add_team` (status gate, strip, case-insensitive
duplicate check, `Team.__post_init__` emptiness check; the fresh
`uuid.uuid4()` is the parameter `new_id`). -/
def add_team (g : GameSession) (team_name : String) (new_id : String) :
    Except GameError Team × GameSession :=
  if g.status ≠ GameStatus.waiting then
    (.error (.invalidState "Cannot add teams after game has started"), g)
  else
    let name := pyStrip team_name
    if g.teams.any (fun t => pyLower t.name == pyLower name) then
      (.error (.teamNameExists name), g)
    else if pyStrip name == "" then
      (.error .emptyTeamName, g)
    else
      let team : Team := { name := name, team_id := new_id, score := 0 }
      (.ok team, { g with teams := g.teams ++ [team] })

/-- `GameStateManager.start_game`.  The password arrives from the payload as
`data.get("password")`, hence `Option String`; Python's `str != None` is
`True`, which `pw ≠ some g.admin_password` reproduces. -/
def start_game (g : GameSession) (pw : Option String) : Except GameError Unit × GameSession :=
  if pw ≠ some g.admin_password then (.error .invalidAdminPassword, g)
  else if g.status ≠ GameStatus.waiting then
    (.error (.invalidState "Game has already started"), g)
  else if g.teams.isEmpty then (.error .noTeams, g)
  else (.ok (), { g with status := GameStatus.in_progress })

/-- `GameStateManager.start_question`. -/
def start_question (qs : List Question) (g : GameSession) (pw : Option String) :
    Except GameError Question × GameSession :=
  if pw ≠ some g.admin_password then (.error .invalidAdminPassword, g)
  else if g.status ≠ GameStatus.in_progress ∧ g.status ≠ GameStatus.question_closed then
    (.error (.invalidState "Cannot start question in current game state"), g)
  else
    match get_question_by_round_and_num qs g.current_round g.current_question with
    | none => (.error (.noQuestionAtCursor g.current_round g.current_question), g)
    | some q => (.ok q, { g with status := GameStatus.question_active })

/-- `GameStateManager.submit_answer`: status gate, team membership,
duplicate check, then append an `Answer` holding the **stripped** text. -/
def submit_answer (g : GameSession) (team_id answer_text : String) :
    Except GameError Answer × GameSession :=
  if g.status ≠ GameStatus.question_active then
    (.error (.invalidState "No active question to answer"), g)
  else if (findTeam g.teams team_id).isNone then (.error .teamNotFoundInGame, g)
  else if (getTeamAnswer g.answers team_id g.current_round g.current_question).isSome then
    (.error .duplicateAnswer, g)
  else
    let a : Answer :=
      { team_id := team_id, question_round := g.current_round,
        question_num := g.current_question, answer_text := pyStrip answer_text,
        is_correct := none, points_awarded := 0 }
    (.ok a, { g with answers := g.answers ++ [a] })

/-- `GameStateManager.close_question`: returns the current-question answers
and only flips the status. -/
def close_question (g : GameSession) (pw : Option String) :
    Except GameError (List Answer) × GameSession :=
  if pw ≠ some g.admin_password then (.error .invalidAdminPassword, g)
  else if g.status ≠ GameStatus.question_active then
    (.error (.invalidState "No active question to close"), g)
  else
    (.ok (g.answers.filter
        (fun a => a.question_round == g.current_round && a.question_num == g.current_question)),
     { g with status := GameStatus.question_closed })

/-- `GameStateManager.grade_answer`.  Note the source checks **neither the
admin password nor the session status**.  It first mutates the located
answer, then — only when `is_correct` — does `game.teams[team_id].score +=
points`; a missing team at that point is Python's `KeyError`, raised *after*
the answer was already mutated, which the `teamKeyError` branch reproduces
(post-state keeps the mutated answer). -/
def grade_answer (g : GameSession) (team_id : String) (round_num question_num : Int)
    (is_correct : Bool) (points : Int) : Except GameError Answer × GameSession :=
  match getTeamAnswer g.answers team_id round_num question_num with
  | none => (.error .answerNotFound, g)
  | some a =>
      let a' : Answer := { a with is_correct := some is_correct,
                                  points_awarded := if is_correct then points else 0 }
      let g1 := { g with answers := updateFirstAnswer team_id round_num question_num
                          (fun b => { b with is_correct := some is_correct,
                                             points_awarded := if is_correct then points else 0 })
                          g.answers }
      if is_correct then
        if (findTeam g1.teams team_id).isSome then
          let teams' := updateFirstTeam team_id
            (fun t => { t with score := t.score + points }) g1.teams
          (.ok a', { g1 with teams := teams' })
        else (.error .teamKeyError, g1)
      else (.ok a', g1)

/-- `GameStateManager.next_question`.  The in-round advance is gated by
`current_question < len(questions_in_round)` — a **count**, not the
existence of a question with the next number — and the round advance is a
plain `current_round += 1` gated by `current_round < max(available_rounds)`.
`max([])` would raise in Python; the `none` branch mirrors that (it is
unreachable once a non-empty question set is loaded). -/
def next_question (qs : List Question) (g : GameSession) (pw : Option String) :
    Except GameError (Option Question) × GameSession :=
  if pw ≠ some g.admin_password then (.error .invalidAdminPassword, g)
  else if g.status ≠ GameStatus.question_closed then
    (.error (.invalidState "Cannot advance to next question in current state"), g)
  else if g.current_question < ((get_questions_for_round qs g.current_round).length : Int) then
    let g' := { g with current_question := g.current_question + 1,
                       status := GameStatus.in_progress }
    (.ok (get_question_by_round_and_num qs g'.current_round g'.current_question), g')
  else
    match (get_rounds_for_game qs).max? with
    | none => (.error .teamKeyError, g)
    | some m =>
        if g.current_round < m then
          let g' := { g with current_round := g.current_round + 1, current_question := 1,
                             status := GameStatus.in_progress }
          (.ok (get_question_by_round_and_num qs g'.current_round g'.current_question), g')
        else (.ok none, { g with status := GameStatus.finished })

/-! ## Question loading (`QuestionManager.load_questions_from_csv`)

The file system and `csv.DictReader` are outside the embedding; a source is
modelled as the list of already-split data rows (the rows `DictReader`
yields after the header line), each a record of the four column strings.
The header/column-name check is not modelled.  Row validation mirrors
`cleaned_row = {k.strip(): v.strip() ...}`, `int(...)` and
`Question.__post_init__`; a failing row aborts the load with the reported
row number `idx + 2` exactly as in the source's
`f"Invalid question at row {idx + 2}"`. -/

/-- One data row of the CSV, as the four column values (strings). -/
structure CsvRow where
  round_num : String
  question_num : String
  question : String
  answer : String
deriving DecidableEq, Repr

/-- `Question.__post_init__` validation. -/
def mkQuestion (round_num question_num : Int) (text ans : String) : Except String Question :=
  if pyStrip text == "" then .error "Question cannot be empty"
  else if pyStrip ans == "" then .error "Answer cannot be empty"
  else if round_num ≤ 0 then .error "Round number must be positive"
  else if question_num ≤ 0 then .error "Question number must be positive"
  else .ok { round_num := round_num, question_num := question_num,
             question := text, answer := ans }

/-- Parse and validate one row: strip every value, `int(...)` the two
numeric columns (`String.toInt?` standing in for Python `int`), then build
the `Question`. -/
def parseRow (row : CsvRow) : Except String Question :=
  match pyInt (pyStrip row.round_num) with
  | none => .error "invalid int literal for round_num"
  | some r =>
      match pyInt (pyStrip row.question_num) with
      | none => .error "invalid int literal for question_num"
      | some q => mkQuestion r q (pyStrip row.question) (pyStrip row.answer)

/-- Load error: either some row failed validation (carrying the row number
as reported in the message) or no rows were parsed at all. -/
inductive LoadError
  | invalidRow (reported : Nat) (msg : String)
  | noValidQuestions
deriving DecidableEq, Repr

/-- The `for idx, row in enumerate(csv_reader)` loop: first failing row
aborts with reported index `idx + 2`. -/
def loadRows : Nat → List CsvRow → Except LoadError (List Question)
  | _, [] => .ok []
  | idx, row :: rest =>
      match parseRow row with
      | .error msg => .error (.invalidRow (idx + 2) msg)
      | .ok q =>
          match loadRows (idx + 1) rest with
          | .error e => .error e
          | .ok qs => .ok (q :: qs)

/-- `QuestionManager.load_questions_from_csv` on the data rows. -/
def load_questions_from_csv (rows : List CsvRow) : Except LoadError (List Question) :=
  match loadRows 0 rows with
  | .error e => .error e
  | .ok [] => .error .noValidQuestions
  | .ok qs => .ok qs

/-! ## WebSocket dispatch layer (`websocket_manager.py`)

Outbound messages keep their payload as an association list mirroring the
Python dict literals (timestamps omitted).  `self.connections` is a list of
`ClientConnection`s, `self.game_connections[game_id]` the list `members`
(Python iterates a set; the iteration order is the list order here).  The
`handle_message` guard "Client not connected" is folded into each handler.
Members carrying a client id absent from `connections` are skipped by
`filterMap` where the source would raise `KeyError`; the source's own
bookkeeping (`game_connections` only ever holds registered clients) makes
the two agree on every reachable state. -/

/-- A JSON-ish payload value. -/
inductive JVal
  | s (v : String)
  | i (v : Int)
  | b (v : Bool)
  | ob (v : Option Bool)
deriving DecidableEq, Repr

/-- Outbound message: event name (the `EventType.value` string) plus the
payload dict as an association list. -/
structure OutMessage where
  event : String
  data : List (String × JVal)
deriving DecidableEq, Repr

/-- `ClientConnection` dataclass (timestamp omitted). -/
structure ClientConnection where
  client_id : String
  team_id : Option String
  is_admin : Bool
deriving DecidableEq, Repr

/-- An `EventType.ERROR` message. -/
def mkError (msg : String) : OutMessage :=
  { event := "error", data := [("message", JVal.s msg)] }

/-- Rendering of a `GameError` to the `ValueError` message the websocket
layer wraps into an error event. -/
def errorText : GameError → String
  | .invalidAdminPassword => "Invalid admin password"
  | .invalidState msg => msg
  | .teamNameExists name => "Team name " ++ name ++ " already exists"
  | .emptyTeamName => "Team name cannot be empty"
  | .noTeams => "Cannot start game with no teams"
  | .teamNotFoundInGame => "Team not found in this game"
  | .duplicateAnswer => "Team has already submitted an answer for this question"
  | .answerNotFound => "Answer not found"
  | .noQuestionAtCursor r q => "No question found for round " ++ toString r ++ toString q
  | .teamKeyError => "KeyError"

/-- `self.connections[client_id]` lookup. -/
def findConn (conns : List ClientConnection) (client_id : String) : Option ClientConnection :=
  conns.find? (fun c => c.client_id == client_id)

/-- Whether a client id belongs to a connection flagged `is_admin`. -/
def isAdminClient (conns : List ClientConnection) (client_id : String) : Bool :=
  ((findConn conns client_id).map (fun c => c.is_admin)).getD false

/-- The `"target_client"` field of a message, when present. -/
def targetOf (m : OutMessage) : Option String :=
  match m.data.lookup "target_client" with
  | some (JVal.s t) => some t
  | _ => none

/-- Whether the payload carries a field named `k`. -/
def hasKey (m : OutMessage) (k : String) : Bool :=
  (m.data.lookup k).isSome

/-- `WebSocketManager._handle_start_question`: admin gate, then
`start_question`, then a per-member broadcast whose payload includes the
`"answer"` field exactly for admin recipients. -/
def handle_start_question (conns : List ClientConnection) (members : List String)
    (qs : List Question) (g : GameSession) (caller : String) (password : Option String) :
    List OutMessage × GameSession :=
  match findConn conns caller with
  | none => ([mkError "Client not connected"], g)
  | some c =>
      if c.is_admin = false then ([mkError "Admin access required"], g)
      else
        match start_question qs g password with
        | (.error e, g') => ([mkError (errorText e)], g')
        | (.ok q, g') =>
            (members.filterMap (fun cid =>
              (findConn conns cid).map (fun tc =>
                if tc.is_admin then
                  { event := "question_started",
                    data := [("round", JVal.i q.round_num),
                             ("question_num", JVal.i q.question_num),
                             ("question", JVal.s q.question),
                             ("answer", JVal.s q.answer),
                             ("target_client", JVal.s cid)] }
                else
                  { event := "question_started",
                    data := [("round", JVal.i q.round_num),
                             ("question_num", JVal.i q.question_num),
                             ("question", JVal.s q.question),
                             ("target_client", JVal.s cid)] })), g')

/-- The auto-correct hint computed in `_handle_submit_answer`:
case-insensitive, whitespace-trimmed comparison against the stored correct
answer at the session's cursor; `("", false)` when no question is there. -/
def autoCorrectInfo (qs : List Question) (g : GameSession) (answer_text : String) :
    String × Bool :=
  match get_question_by_round_and_num qs g.current_round g.current_question with
  | none => ("", false)
  | some q => (q.answer, pyLower (pyStrip answer_text) == pyLower (pyStrip q.answer))

/-- `WebSocketManager._handle_submit_answer`: team-membership gate, falsy
(`""`/absent) answer gate, `submit_answer`, then one confirmation to the
caller (echoing the **un-stripped** payload text, no `target_client` field)
plus one notification per admin member carrying `is_auto_correct` and
`correct_answer`. -/
def handle_submit_answer (conns : List ClientConnection) (members : List String)
    (qs : List Question) (g : GameSession) (caller : String)
    (answer_payload : Option String) : List OutMessage × GameSession :=
  match findConn conns caller with
  | none => ([mkError "Client not connected"], g)
  | some c =>
      match c.team_id with
      | none => ([mkError "Must be part of a team to submit answers"], g)
      | some tid =>
          match answer_payload with
          | none => ([mkError "Answer cannot be empty"], g)
          | some answer_text =>
              if answer_text == "" then ([mkError "Answer cannot be empty"], g)
              else
                match submit_answer g tid answer_text with
                | (.error e, g') => ([mkError (errorText e)], g')
                | (.ok _, g') =>
                    let confirm : OutMessage :=
                      { event := "answer_submitted",
                        data := [("answer", JVal.s answer_text)] }
                    let info := autoCorrectInfo qs g' answer_text
                    let adminMsgs := members.filterMap (fun cid =>
                      (findConn conns cid).bind (fun tc =>
                        if tc.is_admin then
                          (findTeam g'.teams tid).map (fun team =>
                            { event := "answer_submitted",
                              data := [("team_name", JVal.s team.name),
                                       ("team_id", JVal.s tid),
                                       ("answer", JVal.s answer_text),
                                       ("target_client", JVal.s cid),
                                       ("is_auto_correct", JVal.b info.2),
                                       ("correct_answer", JVal.s info.1)] })
                        else none))
                    (confirm :: adminMsgs, g')

/-- `WebSocketManager._handle_grade_answer`.  The payload's `password`
entry, when present, is **never read** (`_payload_password` is unused): the
only gate is the caller connection's `is_admin` flag.  `data.get("points",
1)` is the `points` argument.  The broadcast loop indexes no connections,
it targets every member id directly. -/
def handle_grade_answer (conns : List ClientConnection) (members : List String)
    (g : GameSession) (caller : String) (_payload_password : Option String)
    (team_id : String) (round_num question_num : Int) (is_correct : Bool) (points : Int) :
    List OutMessage × GameSession :=
  match findConn conns caller with
  | none => ([mkError "Client not connected"], g)
  | some c =>
      if c.is_admin = false then ([mkError "Admin access required"], g)
      else
        match grade_answer g team_id round_num question_num is_correct points with
        | (.error e, g') => ([mkError (errorText e)], g')
        | (.ok ans, g') =>
            match findTeam g'.teams team_id with
            | none => ([mkError "KeyError"], g')
            | some team =>
                (members.map (fun cid =>
                  { event := "answer_graded",
                    data := [("team_id", JVal.s team_id),
                             ("team_name", JVal.s team.name),
                             ("is_correct", JVal.b is_correct),
                             ("points_awarded", JVal.i ans.points_awarded),
                             ("new_score", JVal.i team.score),
                             ("target_client", JVal.s cid)] }), g')

/-! ## Operation sequences

For the reachable-state invariants the mutating `GameStateManager` calls
are bundled into one alphabet; `runOps` folds a call sequence over a
session (each call's post-state, successful or not, feeds the next call —
exactly the lifetime of one `GameSession` under the dispatcher). -/

/-- One mutating call, with all its inputs. -/
inductive GameOp
  | addTeam (name new_id : String)
  | startGame (pw : Option String)
  | startQuestion (pw : Option String)
  | submitAnswer (team_id text : String)
  | closeQuestion (pw : Option String)
  | gradeAnswer (team_id : String) (round_num question_num : Int)
      (is_correct : Bool) (points : Int)
  | nextQuestion (pw : Option String)

/-- Post-state of one call. -/
def applyOp (qs : List Question) (g : GameSession) : GameOp → GameSession
  | .addTeam name new_id => (add_team g name new_id).2
  | .startGame pw => (start_game g pw).2
  | .startQuestion pw => (start_question qs g pw).2
  | .submitAnswer team_id text => (submit_answer g team_id text).2
  | .closeQuestion pw => (close_question g pw).2
  | .gradeAnswer team_id r q ic pts => (grade_answer g team_id r q ic pts).2
  | .nextQuestion pw => (next_question qs g pw).2

/-- Fold a call sequence over a session. -/
def runOps (qs : List Question) (g : GameSession) : List GameOp → GameSession
  | [] => g
  | op :: rest => runOps qs (applyOp qs g op) rest

/-! ## Invariant vocabulary and helper lemmas -/

/-- The identity of an answer: its `(teamId, round, questionNumber)` tuple. -/
def answerKey (a : Answer) : String × Int × Int := (a.team_id, a.question_round, a.question_num)

/-- "At most one `Answer` per `(teamId, round, questionNumber)` tuple". -/
def answersDistinct (l : List Answer) : Prop := (l.map answerKey).Pairwise (· ≠ ·)

/-- Every stored score is non-negative. -/
def scoresNonneg (teams : List Team) : Prop := ∀ t ∈ teams, 0 ≤ t.score

/-- The points argument of a `gradeAnswer` call is non-negative. -/
def gradePointsNonneg : GameOp → Prop
  | .gradeAnswer _ _ _ _ pts => 0 ≤ pts
  | _ => True

theorem answerKeyMatch_iff (tid : String) (r q : Int) (a : Answer) :
    answerKeyMatch tid r q a = true ↔ answerKey a = (tid, r, q) := by
  simp [answerKeyMatch, answerKey, Prod.ext_iff, and_assoc]

theorem updateFirstAnswer_map_key (tid : String) (r q : Int) (f : Answer → Answer)
    (hf : ∀ a, answerKey (f a) = answerKey a) :
    ∀ l : List Answer, (updateFirstAnswer tid r q f l).map answerKey = l.map answerKey
  | [] => rfl
  | a :: rest => by
      unfold updateFirstAnswer
      split
      · simp [hf]
      · simp [updateFirstAnswer_map_key tid r q f hf rest]

theorem getTeamAnswer_updateFirstAnswer (tid : String) (r q : Int) (f : Answer → Answer)
    (hf : ∀ a, answerKey (f a) = answerKey a) :
    ∀ l : List Answer,
      getTeamAnswer (updateFirstAnswer tid r q f l) tid r q = (getTeamAnswer l tid r q).map f
  | [] => rfl
  | a :: rest => by
      unfold updateFirstAnswer getTeamAnswer
      by_cases h : answerKeyMatch tid r q a = true
      · have hfa : answerKeyMatch tid r q (f a) = true := by
          rw [answerKeyMatch_iff] at h ⊢
          rw [hf, h]
        rw [if_pos h, List.find?_cons_of_pos _ hfa, List.find?_cons_of_pos _ h]
        rfl
      · rw [if_neg h, List.find?_cons_of_neg _ h, List.find?_cons_of_neg _ h]
        exact getTeamAnswer_updateFirstAnswer tid r q f hf rest

theorem findTeam_updateFirstTeam (tid : String) (f : Team → Team)
    (hf : ∀ t, (f t).team_id = t.team_id) :
    ∀ l : List Team, findTeam (updateFirstTeam tid f l) tid = (findTeam l tid).map f
  | [] => rfl
  | t :: rest => by
      unfold updateFirstTeam findTeam
      by_cases h : (t.team_id == tid) = true
      · have hft : ((f t).team_id == tid) = true := by rw [hf]; exact h
        rw [if_pos h, @List.find?_cons_of_pos _ (fun u => u.team_id == tid) (f t) rest hft,
          @List.find?_cons_of_pos _ (fun u => u.team_id == tid) t rest h]
        rfl
      · rw [if_neg h,
          @List.find?_cons_of_neg _ (fun u => u.team_id == tid) t (updateFirstTeam tid f rest) h,
          @List.find?_cons_of_neg _ (fun u => u.team_id == tid) t rest h]
        exact findTeam_updateFirstTeam tid f hf rest

theorem mem_updateFirstTeam (tid : String) (f : Team → Team) :
    ∀ l : List Team, ∀ b ∈ updateFirstTeam tid f l, b ∈ l ∨ ∃ c ∈ l, b = f c
  | [] => by intro b hb; cases hb
  | t :: rest => by
      intro b hb
      unfold updateFirstTeam at hb
      split at hb
      · rcases List.mem_cons.mp hb with h | h
        · exact Or.inr ⟨t, List.mem_cons_self .., h⟩
        · exact Or.inl (List.mem_cons_of_mem _ h)
      · rcases List.mem_cons.mp hb with h | h
        · exact Or.inl (h ▸ List.mem_cons_self ..)
        · rcases mem_updateFirstTeam tid f rest b h with h' | ⟨c, hc, hbc⟩
          · exact Or.inl (List.mem_cons_of_mem _ h')
          · exact Or.inr ⟨c, List.mem_cons_of_mem _ hc, hbc⟩

theorem add_team_answers (g : GameSession) (n i : String) :
    (add_team g n i).2.answers = g.answers := by
  unfold add_team
  split
  · rfl
  · dsimp only
    split
    · rfl
    · split <;> rfl

theorem add_team_teams (g : GameSession) (n i : String) :
    (add_team g n i).2.teams = g.teams ∨
      (add_team g n i).2.teams = g.teams ++ [⟨pyStrip n, i, 0⟩] := by
  unfold add_team
  split
  · exact Or.inl rfl
  · dsimp only
    split
    · exact Or.inl rfl
    · split
      · exact Or.inl rfl
      · exact Or.inr rfl

theorem start_game_answers (g : GameSession) (pw : Option String) :
    (start_game g pw).2.answers = g.answers := by
  unfold start_game; repeat' split
  all_goals rfl

theorem start_game_teams (g : GameSession) (pw : Option String) :
    (start_game g pw).2.teams = g.teams := by
  unfold start_game; repeat' split
  all_goals rfl

theorem start_question_answers (qs : List Question) (g : GameSession) (pw : Option String) :
    (start_question qs g pw).2.answers = g.answers := by
  unfold start_question; repeat' split
  all_goals rfl

theorem start_question_teams (qs : List Question) (g : GameSession) (pw : Option String) :
    (start_question qs g pw).2.teams = g.teams := by
  unfold start_question; repeat' split
  all_goals rfl

theorem submit_answer_teams (g : GameSession) (tid text : String) :
    (submit_answer g tid text).2.teams = g.teams := by
  unfold submit_answer; repeat' split
  all_goals rfl

theorem submit_answer_answers (g : GameSession) (tid text : String) :
    (submit_answer g tid text).2.answers = g.answers ∨
      (getTeamAnswer g.answers tid g.current_round g.current_question = none ∧
        (submit_answer g tid text).2.answers = g.answers ++
          [⟨tid, g.current_round, g.current_question, pyStrip text, none, 0⟩]) := by
  unfold submit_answer
  split
  · exact Or.inl rfl
  · split
    · exact Or.inl rfl
    · split
      · exact Or.inl rfl
      · rename_i hdup
        exact Or.inr ⟨Option.not_isSome_iff_eq_none.mp hdup, rfl⟩

theorem close_question_answers (g : GameSession) (pw : Option String) :
    (close_question g pw).2.answers = g.answers := by
  unfold close_question; repeat' split
  all_goals rfl

theorem close_question_teams (g : GameSession) (pw : Option String) :
    (close_question g pw).2.teams = g.teams := by
  unfold close_question; repeat' split
  all_goals rfl

theorem next_question_answers (qs : List Question) (g : GameSession) (pw : Option String) :
    (next_question qs g pw).2.answers = g.answers := by
  unfold next_question; repeat' split
  all_goals rfl

theorem next_question_teams (qs : List Question) (g : GameSession) (pw : Option String) :
    (next_question qs g pw).2.teams = g.teams := by
  unfold next_question; repeat' split
  all_goals rfl

theorem grade_answer_answers (g : GameSession) (tid : String) (r q : Int) (ic : Bool)
    (pts : Int) :
    (grade_answer g tid r q ic pts).2.answers = g.answers ∨
      (grade_answer g tid r q ic pts).2.answers =
        updateFirstAnswer tid r q
          (fun b => { b with is_correct := some ic,
                             points_awarded := if ic then pts else 0 }) g.answers := by
  unfold grade_answer
  split
  · exact Or.inl rfl
  · dsimp only
    repeat' split
    all_goals exact Or.inr rfl

theorem grade_answer_teams (g : GameSession) (tid : String) (r q : Int) (ic : Bool)
    (pts : Int) :
    (grade_answer g tid r q ic pts).2.teams = g.teams ∨
      (grade_answer g tid r q ic pts).2.teams =
        updateFirstTeam tid (fun t => { t with score := t.score + pts }) g.teams := by
  unfold grade_answer
  split
  · exact Or.inl rfl
  · dsimp only
    repeat' split
    · exact Or.inr rfl
    · exact Or.inl rfl
    · exact Or.inl rfl

theorem answersDistinct_append_of_not_found (l : List Answer) (tid : String) (r q : Int)
    (a : Answer) (ha : answerKey a = (tid, r, q)) (h : answersDistinct l)
    (hnone : getTeamAnswer l tid r q = none) : answersDistinct (l ++ [a]) := by
  unfold answersDistinct at h ⊢
  rw [List.map_append, List.pairwise_append]
  refine ⟨h, List.pairwise_singleton _ _, ?_⟩
  intro x hx y hy
  simp only [List.map_cons, List.map_nil, List.mem_singleton] at hy
  subst hy
  rcases List.mem_map.mp hx with ⟨b, hb, rfl⟩
  unfold getTeamAnswer at hnone
  have := List.find?_eq_none.mp hnone b hb
  rw [ha]
  intro hk
  exact this (by rw [answerKeyMatch_iff, hk])

theorem answersDistinct_applyOp (qs : List Question) (g : GameSession) (op : GameOp)
    (h : answersDistinct g.answers) : answersDistinct (applyOp qs g op).answers := by
  cases op with
  | addTeam n i =>
      show answersDistinct (add_team g n i).2.answers
      rw [add_team_answers]; exact h
  | startGame pw =>
      show answersDistinct (start_game g pw).2.answers
      rw [start_game_answers]; exact h
  | startQuestion pw =>
      show answersDistinct (start_question qs g pw).2.answers
      rw [start_question_answers]; exact h
  | submitAnswer tid text =>
      show answersDistinct (submit_answer g tid text).2.answers
      rcases submit_answer_answers g tid text with he | ⟨hnone, he⟩ <;> rw [he]
      · exact h
      · exact answersDistinct_append_of_not_found _ tid _ _ _ rfl h hnone
  | closeQuestion pw =>
      show answersDistinct (close_question g pw).2.answers
      rw [close_question_answers]; exact h
  | gradeAnswer tid r q ic pts =>
      show answersDistinct (grade_answer g tid r q ic pts).2.answers
      rcases grade_answer_answers g tid r q ic pts with he | he <;> rw [he]
      · exact h
      · unfold answersDistinct
        rw [updateFirstAnswer_map_key tid r q
          (fun b => { b with is_correct := some ic,
                             points_awarded := if ic then pts else 0 })
          (fun a => rfl)]
        exact h
  | nextQuestion pw =>
      show answersDistinct (next_question qs g pw).2.answers
      rw [next_question_answers]; exact h

theorem answersDistinct_runOps (qs : List Question) :
    ∀ (ops : List GameOp) (g : GameSession),
      answersDistinct g.answers → answersDistinct (runOps qs g ops).answers
  | [], _, h => h
  | op :: rest, g, h =>
      answersDistinct_runOps qs rest (applyOp qs g op) (answersDistinct_applyOp qs g op h)

theorem scoresNonneg_applyOp (qs : List Question) (g : GameSession) (op : GameOp)
    (hop : gradePointsNonneg op) (h : scoresNonneg g.teams) :
    scoresNonneg (applyOp qs g op).teams := by
  cases op with
  | addTeam n i =>
      show scoresNonneg (add_team g n i).2.teams
      rcases add_team_teams g n i with he | he <;> rw [he]
      · exact h
      · intro t ht
        rcases List.mem_append.mp ht with h' | h'
        · exact h t h'
        · rw [List.mem_singleton] at h'
          subst h'
          exact le_refl _
  | startGame pw =>
      show scoresNonneg (start_game g pw).2.teams
      rw [start_game_teams]; exact h
  | startQuestion pw =>
      show scoresNonneg (start_question qs g pw).2.teams
      rw [start_question_teams]; exact h
  | submitAnswer tid text =>
      show scoresNonneg (submit_answer g tid text).2.teams
      rw [submit_answer_teams]; exact h
  | closeQuestion pw =>
      show scoresNonneg (close_question g pw).2.teams
      rw [close_question_teams]; exact h
  | gradeAnswer tid r q ic pts =>
      show scoresNonneg (grade_answer g tid r q ic pts).2.teams
      rcases grade_answer_teams g tid r q ic pts with he | he <;> rw [he]
      · exact h
      · intro t ht
        rcases mem_updateFirstTeam tid _ g.teams t ht with h' | ⟨c, hc, rfl⟩
        · exact h t h'
        · have hpts : (0 : Int) ≤ pts := hop
          exact add_nonneg (h c hc) hpts
  | nextQuestion pw =>
      show scoresNonneg (next_question qs g pw).2.teams
      rw [next_question_teams]; exact h

theorem scoresNonneg_runOps (qs : List Question) :
    ∀ (ops : List GameOp) (g : GameSession),
      (∀ op ∈ ops, gradePointsNonneg op) → scoresNonneg g.teams →
        scoresNonneg (runOps qs g ops).teams
  | [], _, _, h => h
  | op :: rest, g, hops, h =>
      scoresNonneg_runOps qs rest (applyOp qs g op)
        (fun o ho => hops o (List.mem_cons_of_mem _ ho))
        (scoresNonneg_applyOp qs g op (hops op (List.mem_cons_self ..)) h)

theorem add_team_ok_score (g : GameSession) (n i : String) (t : Team) (g' : GameSession)
    (h : add_team g n i = (.ok t, g')) : t.score = 0 := by
  unfold add_team at h
  split at h
  · simp at h
  · dsimp only at h
    split at h
    · simp at h
    · split at h
      · simp at h
      · rw [Prod.mk.injEq] at h
        have := h.1
        simp only [Except.ok.injEq] at this
        rw [← this]

theorem submit_answer_ok (g : GameSession) (tid text : String) (a : Answer)
    (g' : GameSession) (hsub : submit_answer g tid text = (.ok a, g')) :
    g.status = GameStatus.question_active ∧ (findTeam g.teams tid).isSome = true ∧
    getTeamAnswer g.answers tid g.current_round g.current_question = none ∧
    a = ⟨tid, g.current_round, g.current_question, pyStrip text, none, 0⟩ ∧
    g' = { g with answers := g.answers ++ [a] } := by
  unfold submit_answer at hsub
  split at hsub
  · simp at hsub
  · split at hsub
    · simp at hsub
    · split at hsub
      · simp at hsub
      · rw [Prod.mk.injEq] at hsub
        obtain ⟨h1, h2⟩ := hsub
        simp only [Except.ok.injEq] at h1
        rename_i hst hteam hdup
        refine ⟨not_not.mp hst, ?_, ?_, h1.symm, by rw [← h2, ← h1]⟩
        · rcases ho : findTeam g.teams tid with _ | _
          · rw [ho] at hteam; simp at hteam
          · rfl
        · exact Option.not_isSome_iff_eq_none.mp hdup

theorem grade_answer_none (g : GameSession) (tid : String) (r q : Int) (ic : Bool) (pts : Int)
    (h : getTeamAnswer g.answers tid r q = none) :
    grade_answer g tid r q ic pts = (.error .answerNotFound, g) := by
  unfold grade_answer
  rw [h]

theorem grade_answer_found_false (g : GameSession) (tid : String) (r q pts : Int) (a : Answer)
    (hans : getTeamAnswer g.answers tid r q = some a) :
    grade_answer g tid r q false pts =
      (.ok { a with is_correct := some false, points_awarded := 0 },
       { g with answers := updateFirstAnswer tid r q
                  (fun b => { b with is_correct := some false, points_awarded := 0 })
                  g.answers }) := by
  unfold grade_answer
  rw [hans]
  simp

theorem grade_answer_found_true (g : GameSession) (tid : String) (r q pts : Int) (a : Answer)
    (t : Team) (hans : getTeamAnswer g.answers tid r q = some a)
    (hteam : findTeam g.teams tid = some t) :
    grade_answer g tid r q true pts =
      (.ok { a with is_correct := some true, points_awarded := pts },
       { g with
          answers := updateFirstAnswer tid r q
            (fun b => { b with is_correct := some true, points_awarded := pts }) g.answers,
          teams := updateFirstTeam tid (fun u => { u with score := u.score + pts })
            g.teams }) := by
  unfold grade_answer
  rw [hans]
  simp [hteam]

/-- Fixture session: one game, round/question cursor at (1, 1). -/
def mkSession (st : GameStatus) (teams : List Team) (answers : List Answer) : GameSession :=
  { game_id := "g1", csv_file_path := "questions.csv", admin_password := "pw",
    status := st, teams := teams, current_round := 1, current_question := 1,
    answers := answers }

/-- Fixture team. -/
def wTeam : Team := ⟨"Alpha", "t1", 0⟩

/-- Fixture answer for the cursor (1, 1). -/
def wAns : Answer := ⟨"t1", 1, 1, "4", none, 0⟩

/-- Fixture question set: round 1 with questions 1 and 2. -/
def wQs : List Question := [⟨1, 1, "2+2", "4"⟩, ⟨1, 2, "3+3", "6"⟩]

/-- **C6.** In any status, `gradeAnswer` on an existing
`(teamId, round, questionNumber)` answer sets its correctness flag, sets
`pointsAwarded` to the given points when correct and forces it to `0` when
incorrect, and adds the points to the owning team's score exactly when
correct (the team list is untouched on an incorrect grade); grading the
same answer twice with `isCorrect = true` increments the score a second
time; and `gradeAnswer` on a tuple with no stored answer fails with
`NotFound` and changes nothing. -/
theorem claim6_grade_answer_semantics (g : GameSession) (tid : String) (r q pts : Int) :
    (getTeamAnswer g.answers tid r q = none →
        ∀ ic, grade_answer g tid r q ic pts = (.error .answerNotFound, g)) ∧
    (∀ a, getTeamAnswer g.answers tid r q = some a →
        (grade_answer g tid r q false pts).1 =
          .ok { a with is_correct := some false, points_awarded := 0 } ∧
        (grade_answer g tid r q false pts).2.teams = g.teams) ∧
    (∀ a t, getTeamAnswer g.answers tid r q = some a → findTeam g.teams tid = some t →
        (grade_answer g tid r q true pts).1 =
          .ok { a with is_correct := some true, points_awarded := pts } ∧
        findTeam (grade_answer g tid r q true pts).2.teams tid =
          some { t with score := t.score + pts } ∧
        findTeam
            (grade_answer (grade_answer g tid r q true pts).2 tid r q true pts).2.teams tid =
          some { t with score := t.score + pts + pts }) := by
  refine ⟨fun h ic => grade_answer_none g tid r q ic pts h, ?_, ?_⟩
  · intro a ha
    rw [grade_answer_found_false g tid r q pts a ha]
    exact ⟨rfl, rfl⟩
  · intro a t ha ht
    have h1 := grade_answer_found_true g tid r q pts a t ha ht
    have hfind1 :
        findTeam (grade_answer g tid r q true pts).2.teams tid =
          some { t with score := t.score + pts } := by
      rw [h1]
      rw [findTeam_updateFirstTeam tid (fun u => { u with score := u.score + pts })
        (fun u => rfl) g.teams, ht]
      rfl
    refine ⟨by rw [h1], hfind1, ?_⟩
    have hans2 :
        getTeamAnswer (grade_answer g tid r q true pts).2.answers tid r q =
          some { a with is_correct := some true, points_awarded := pts } := by
      rw [h1]
      rw [getTeamAnswer_updateFirstAnswer tid r q
        (fun b => { b with is_correct := some true, points_awarded := pts })
        (fun b => rfl) g.answers, ha]
      rfl
    have h2 := grade_answer_found_true (grade_answer g tid r q true pts).2 tid r q pts
      { a with is_correct := some true, points_awarded := pts }
      { t with score := t.score + pts } hans2 hfind1
    rw [h2]
    rw [findTeam_updateFirstTeam tid (fun u => { u with score := u.score + pts })
      (fun u => rfl) (grade_answer g tid r q true pts).2.teams, hfind1]
    rfl

/-- Witness instantiating `claim6_grade_answer_semantics`: on a concrete
session grading a missing answer fails and leaves the session as it was,
and grading the stored answer correct with 3 points makes the team's score
3. -/
theorem claim6_witness :
    grade_answer (mkSession .question_closed [] []) "t1" 1 1 true 3 =
      (.error .answerNotFound, mkSession .question_closed [] []) ∧
    findTeam (grade_answer (mkSession .finished [wTeam] [wAns]) "t1" 1 1 true 3).2.teams
        "t1" = some ⟨"Alpha", "t1", 3⟩ := by
  constructor
  · exact (claim6_grade_answer_semantics (mkSession .question_closed [] []) "t1" 1 1 3).1
      (by decide) true
  · have h := ((claim6_grade_answer_semantics (mkSession .finished [wTeam] [wAns])
      "t1" 1 1 3).2.2 wAns wTeam (by decide) (by decide)).2.1
    simpa [wTeam] using h

theorem start_question_err_or_ok (qs : List Question) (g : GameSession) (pw : Option String) :
    (start_question qs g pw).2 = g ∨ ∃ q, (start_question qs g pw).1 = .ok q := by
  unfold start_question
  repeat' split
  · exact Or.inl rfl
  · exact Or.inl rfl
  · exact Or.inl rfl
  · exact Or.inr ⟨_, rfl⟩

theorem submit_answer_err_or_ok (g : GameSession) (tid text : String) :
    (submit_answer g tid text).2 = g ∨ ∃ a, (submit_answer g tid text).1 = .ok a := by
  unfold submit_answer
  repeat' split
  · exact Or.inl rfl
  · exact Or.inl rfl
  · exact Or.inl rfl
  · exact Or.inr ⟨_, rfl⟩

theorem close_question_err_or_ok (g : GameSession) (pw : Option String) :
    (close_question g pw).2 = g ∨ ∃ l, (close_question g pw).1 = .ok l := by
  unfold close_question
  repeat' split
  · exact Or.inl rfl
  · exact Or.inl rfl
  · exact Or.inr ⟨_, rfl⟩

/-- **C7.** State-gating: `startQuestion` succeeds only when the status is
`InProgress` or `QuestionClosed` and (given the correct secret) fails with
the `InvalidState` error otherwise; `submitAnswer` succeeds only in
`QuestionActive` and fails with the `InvalidState` error otherwise;
`closeQuestion` succeeds only in `QuestionActive` and (given the correct
secret) fails with the `InvalidState` error otherwise; every failing call
of the three leaves the session unchanged. -/
theorem claim7_state_gating (qs : List Question) (g : GameSession) (pw : Option String)
    (tid text : String) :
    (∀ q g', start_question qs g pw = (.ok q, g') →
        g.status = GameStatus.in_progress ∨ g.status = GameStatus.question_closed) ∧
    (pw = some g.admin_password → g.status ≠ GameStatus.in_progress →
        g.status ≠ GameStatus.question_closed →
        start_question qs g pw =
          (.error (.invalidState "Cannot start question in current game state"), g)) ∧
    (∀ a g', submit_answer g tid text = (.ok a, g') →
        g.status = GameStatus.question_active) ∧
    (g.status ≠ GameStatus.question_active →
        submit_answer g tid text =
          (.error (.invalidState "No active question to answer"), g)) ∧
    (∀ l g', close_question g pw = (.ok l, g') → g.status = GameStatus.question_active) ∧
    (pw = some g.admin_password → g.status ≠ GameStatus.question_active →
        close_question g pw = (.error (.invalidState "No active question to close"), g)) ∧
    (∀ e, (start_question qs g pw).1 = .error e → (start_question qs g pw).2 = g) ∧
    (∀ e, (submit_answer g tid text).1 = .error e → (submit_answer g tid text).2 = g) ∧
    (∀ e, (close_question g pw).1 = .error e → (close_question g pw).2 = g) := by
  refine ⟨?_, ?_, ?_, ?_, ?_, ?_, ?_, ?_, ?_⟩
  · intro q g' h
    unfold start_question at h
    split at h
    · simp at h
    · split at h
      · simp at h
      · rename_i hcond
        rcases not_and_or.mp hcond with hc | hc
        · exact Or.inl (not_not.mp hc)
        · exact Or.inr (not_not.mp hc)
  · intro hpw h1 h2
    unfold start_question
    rw [if_neg (not_not.mpr hpw), if_pos ⟨h1, h2⟩]
  · intro a g' h
    exact (submit_answer_ok g tid text a g' h).1
  · intro h
    unfold submit_answer
    rw [if_pos h]
  · intro l g' h
    unfold close_question at h
    split at h
    · simp at h
    · split at h
      · simp at h
      · rename_i hcond
        exact not_not.mp hcond
  · intro hpw h
    unfold close_question
    rw [if_neg (not_not.mpr hpw), if_pos h]
  · intro e h
    rcases start_question_err_or_ok qs g pw with h' | ⟨q, hq⟩
    · exact h'
    · rw [h] at hq; exact Except.noConfusion hq
  · intro e h
    rcases submit_answer_err_or_ok g tid text with h' | ⟨a, ha⟩
    · exact h'
    · rw [h] at ha; exact Except.noConfusion ha
  · intro e h
    rcases close_question_err_or_ok g pw with h' | ⟨l, hl⟩
    · exact h'
    · rw [h] at hl; exact Except.noConfusion hl

/-- Witness instantiating `claim7_state_gating`: on a concrete `Waiting`
session with the right secret, `startQuestion` fails with the state error
and changes nothing, and so do `submitAnswer` and `closeQuestion`. -/
theorem claim7_witness :
    start_question wQs (mkSession .waiting [wTeam] []) (some "pw") =
      (.error (.invalidState "Cannot start question in current game state"),
       mkSession .waiting [wTeam] []) ∧
    submit_answer (mkSession .waiting [wTeam] []) "t1" "4" =
      (.error (.invalidState "No active question to answer"), mkSession .waiting [wTeam] []) ∧
    close_question (mkSession .waiting [wTeam] []) (some "pw") =
      (.error (.invalidState "No active question to close"), mkSession .waiting [wTeam] []) := by
  have h := claim7_state_gating wQs (mkSession .waiting [wTeam] []) (some "pw") "t1" "4"
  exact ⟨h.2.1 (by decide) (by decide) (by decide), h.2.2.2.1 (by decide),
    h.2.2.2.2.2.1 (by decide) (by decide)⟩

/-- **C5.** A second `submitAnswer` by the same team for the same cursor
fails with the duplicate-submission error and leaves the session — in
particular the first stored answer — unchanged; and over every sequence of
mutating calls the answers list keeps at most one answer per
`(teamId, round, questionNumber)` tuple. -/
theorem claim5_duplicate_submission (qs : List Question) (g g' : GameSession)
    (tid text text2 : String) (a : Answer) :
    (submit_answer g tid text = (.ok a, g') →
        submit_answer g' tid text2 = (.error .duplicateAnswer, g')) ∧
    (∀ g₀ : GameSession, answersDistinct g₀.answers →
        ∀ ops : List GameOp, answersDistinct (runOps qs g₀ ops).answers) := by
  constructor
  · intro hsub
    obtain ⟨hst, hteam, hnone, ha, hg'⟩ := submit_answer_ok g tid text a g' hsub
    have hst' : g'.status = GameStatus.question_active := by rw [hg']; exact hst
    have hteam' : (findTeam g'.teams tid).isNone = false := by
      rw [hg']
      show (findTeam g.teams tid).isNone = false
      rcases h : findTeam g.teams tid with _ | t
      · rw [h] at hteam; simp at hteam
      · rfl
    have hdup :
        (getTeamAnswer g'.answers tid g'.current_round g'.current_question).isSome = true := by
      rw [hg']
      show ((g.answers ++ [a]).find?
        (answerKeyMatch tid g.current_round g.current_question)).isSome = true
      rw [List.find?_append]
      unfold getTeamAnswer at hnone
      rw [hnone]
      subst ha
      simp [answerKeyMatch]
    simp [submit_answer, hst', hteam', hdup]
  · intro g₀ h0 ops
    exact answersDistinct_runOps qs ops g₀ h0

/-- The §8 happy-path call sequence, as a concrete operation list. -/
def wOps : List GameOp :=
  [.addTeam "Alpha" "t1", .startGame (some "pw"), .startQuestion (some "pw"),
   .submitAnswer "t1" "4", .closeQuestion (some "pw"), .gradeAnswer "t1" 1 1 true 1,
   .nextQuestion (some "pw")]

/-- Witness instantiating `claim5_duplicate_submission` on a concrete
session and the concrete §8 call sequence. -/
theorem claim5_witness :
    submit_answer (mkSession .question_active [wTeam] [wAns]) "t1" "5" =
      (.error .duplicateAnswer, mkSession .question_active [wTeam] [wAns]) ∧
    answersDistinct (runOps wQs (mkSession .waiting [] []) wOps).answers := by
  have h := claim5_duplicate_submission wQs (mkSession .question_active [wTeam] [])
    (mkSession .question_active [wTeam] [wAns]) "t1" "4" "5" wAns
  refine ⟨h.1 rfl, h.2 (mkSession .waiting [] []) ?_ wOps⟩
  show List.Pairwise _ _
  exact List.Pairwise.nil

/-- **C9 (amended).** A team is created with score 0, and scores stay
non-negative over every call sequence in which each `gradeAnswer` carries
non-negative points; the restriction is necessary because `grade_answer`
adds the payload's points without validation (see the counterexample). -/
theorem claim9_scores (qs : List Question) (g₀ : GameSession)
    (h0 : scoresNonneg g₀.teams) (ops : List GameOp)
    (hpts : ∀ op ∈ ops, gradePointsNonneg op) :
    (∀ n i t g', add_team g₀ n i = (.ok t, g') → t.score = 0) ∧
    scoresNonneg (runOps qs g₀ ops).teams :=
  ⟨fun n i t g' h => add_team_ok_score g₀ n i t g' h,
   scoresNonneg_runOps qs ops g₀ hpts h0⟩

/-- Witness instantiating `claim9_scores` on the concrete §8 sequence. -/
theorem claim9_witness :
    wTeam.score = 0 ∧
    scoresNonneg (runOps wQs (mkSession .waiting [] []) wOps).teams := by
  have h := claim9_scores wQs (mkSession .waiting [] []) (by intro t ht; cases ht) wOps
    (by intro op hop; fin_cases hop <;> simp [gradePointsNonneg])
  exact ⟨h.1 "Alpha" "t1" wTeam (mkSession .waiting [wTeam] []) rfl, h.2⟩

/-- Counterexample to C9 as stated: `gradeAnswer` with payload points `-5`
drives the team's score to `-5`, which is negative — no validation guards
the points taken from the inbound payload. -/
theorem claim9_counterexample :
    (grade_answer (mkSession .question_closed [wTeam] [wAns]) "t1" 1 1 true (-5)).2.teams =
      [⟨"Alpha", "t1", -5⟩] ∧
    ¬ scoresNonneg
        (grade_answer (mkSession .question_closed [wTeam] [wAns]) "t1" 1 1 true (-5)).2.teams := by
  constructor
  · decide
  · intro h
    exact absurd (h ⟨"Alpha", "t1", -5⟩ (by decide)) (by decide)

/-- **C1 (amended).** `startGame`, `startQuestion`, `closeQuestion` and
`nextQuestion` check the caller-supplied secret by equality against the
session's stored secret, and a mismatch fails with the `Unauthorized` error
and leaves the session unchanged.  `gradeAnswer`, however, performs **no
secret check**: its handler is gated only by the connection's `is_admin`
flag — its output is independent of any password in the payload, and a
non-admin caller gets the admin-required error with the session
unchanged. -/
theorem claim1_admin_secret (qs : List Question) (g : GameSession) (pw : Option String)
    (conns : List ClientConnection) (members : List String) (caller tid : String)
    (r q : Int) (ic : Bool) (pts : Int) :
    (pw ≠ some g.admin_password →
        start_game g pw = (.error .invalidAdminPassword, g) ∧
        start_question qs g pw = (.error .invalidAdminPassword, g) ∧
        close_question g pw = (.error .invalidAdminPassword, g) ∧
        next_question qs g pw = (.error .invalidAdminPassword, g)) ∧
    (∀ pw1 pw2 : Option String,
        handle_grade_answer conns members g caller pw1 tid r q ic pts =
          handle_grade_answer conns members g caller pw2 tid r q ic pts) ∧
    (∀ c, findConn conns caller = some c → c.is_admin = false →
        handle_grade_answer conns members g caller pw tid r q ic pts =
          ([mkError "Admin access required"], g)) := by
  refine ⟨?_, fun pw1 pw2 => rfl, ?_⟩
  · intro h
    refine ⟨?_, ?_, ?_, ?_⟩
    · unfold start_game; rw [if_pos h]
    · unfold start_question; rw [if_pos h]
    · unfold close_question; rw [if_pos h]
    · unfold next_question; rw [if_pos h]
  · intro c hc hadm
    unfold handle_grade_answer
    rw [hc]
    simp [hadm]

/-- Fixture admin connection list: one connected admin client `"adm"`. -/
def wConns : List ClientConnection := [⟨"adm", none, true⟩]

/-- Counterexample to C1 as stated: on a concrete session whose stored
secret is `"pw"`, a `gradeAnswer` dispatch carrying the mismatched secret
`"wrong"` does **not** fail — it broadcasts `answerGraded` and changes the
team's score. -/
theorem claim1_counterexample :
    some "wrong" ≠ some (mkSession .question_closed [wTeam] [wAns]).admin_password ∧
    ((handle_grade_answer wConns ["adm"] (mkSession .question_closed [wTeam] [wAns]) "adm"
        (some "wrong") "t1" 1 1 true 5).1.map (fun m => m.event)) = ["answer_graded"] ∧
    (handle_grade_answer wConns ["adm"] (mkSession .question_closed [wTeam] [wAns]) "adm"
        (some "wrong") "t1" 1 1 true 5).2.teams = [⟨"Alpha", "t1", 5⟩] := by
  refine ⟨by decide, by decide, by decide⟩

/-- Witness instantiating `claim1_admin_secret` at a concrete session and a
mismatching secret. -/
theorem claim1_witness :
    start_game (mkSession .waiting [wTeam] []) (some "nope") =
      (.error .invalidAdminPassword, mkSession .waiting [wTeam] []) ∧
    next_question wQs (mkSession .question_closed [wTeam] []) none =
      (.error .invalidAdminPassword, mkSession .question_closed [wTeam] []) ∧
    handle_grade_answer wConns ["adm"] (mkSession .question_closed [wTeam] [wAns]) "nobody"
        (some "pw") "t1" 1 1 true 5 =
      handle_grade_answer wConns ["adm"] (mkSession .question_closed [wTeam] [wAns]) "nobody"
        none "t1" 1 1 true 5 := by
  refine ⟨?_, ?_, ?_⟩
  · exact (claim1_admin_secret wQs (mkSession .waiting [wTeam] []) (some "nope") wConns
      ["adm"] "adm" "t1" 1 1 true 5).1 (by decide) |>.1
  · exact ((claim1_admin_secret wQs (mkSession .question_closed [wTeam] []) none wConns
      ["adm"] "adm" "t1" 1 1 true 5).1 (by decide)).2.2.2
  · exact (claim1_admin_secret wQs (mkSession .question_closed [wTeam] [wAns]) (some "pw")
      wConns ["adm"] "nobody" "t1" 1 1 true 5).2.1 (some "pw") none

/-- **C3 (amended).** Once a session is `Finished`, `addTeam`, `start`,
`startQuestion`, `submitAnswer`, `closeQuestion` and `nextQuestion` all
fail with their `InvalidState` error (given the correct secret where one is
checked) and leave the session unchanged — but `gradeAnswer`, which checks
no status at all, still succeeds on an existing answer and mutates the
answer and the team's score even in `Finished`. -/
theorem claim3_finished_terminal (qs : List Question) (g : GameSession)
    (hfin : g.status = GameStatus.finished) (name new_id tid text : String) (r q pts : Int) :
    add_team g name new_id =
      (.error (.invalidState "Cannot add teams after game has started"), g) ∧
    start_game g (some g.admin_password) =
      (.error (.invalidState "Game has already started"), g) ∧
    start_question qs g (some g.admin_password) =
      (.error (.invalidState "Cannot start question in current game state"), g) ∧
    submit_answer g tid text =
      (.error (.invalidState "No active question to answer"), g) ∧
    close_question g (some g.admin_password) =
      (.error (.invalidState "No active question to close"), g) ∧
    next_question qs g (some g.admin_password) =
      (.error (.invalidState "Cannot advance to next question in current state"), g) ∧
    (∀ a t, getTeamAnswer g.answers tid r q = some a → findTeam g.teams tid = some t →
        (grade_answer g tid r q true pts).1 =
          .ok { a with is_correct := some true, points_awarded := pts } ∧
        findTeam (grade_answer g tid r q true pts).2.teams tid =
          some { t with score := t.score + pts }) := by
  refine ⟨?_, ?_, ?_, ?_, ?_, ?_, ?_⟩
  · unfold add_team
    rw [if_pos (by rw [hfin]; exact fun h => GameStatus.noConfusion h)]
  · unfold start_game
    rw [if_neg (not_not.mpr rfl),
      if_pos (by rw [hfin]; exact fun h => GameStatus.noConfusion h)]
  · unfold start_question
    rw [if_neg (not_not.mpr rfl),
      if_pos ⟨by rw [hfin]; exact fun h => GameStatus.noConfusion h,
              by rw [hfin]; exact fun h => GameStatus.noConfusion h⟩]
  · unfold submit_answer
    rw [if_pos (by rw [hfin]; exact fun h => GameStatus.noConfusion h)]
  · unfold close_question
    rw [if_neg (not_not.mpr rfl),
      if_pos (by rw [hfin]; exact fun h => GameStatus.noConfusion h)]
  · unfold next_question
    rw [if_neg (not_not.mpr rfl),
      if_pos (by rw [hfin]; exact fun h => GameStatus.noConfusion h)]
  · intro a t ha ht
    have h1 := grade_answer_found_true g tid r q pts a t ha ht
    refine ⟨by rw [h1], ?_⟩
    rw [h1]
    rw [findTeam_updateFirstTeam tid (fun u => { u with score := u.score + pts })
      (fun u => rfl) g.teams, ht]
    rfl

/-- Counterexample to C3 as stated: on a concrete `Finished` session,
`gradeAnswer` succeeds (no `InvalidState` failure) and changes the stored
answer and the team's score. -/
theorem claim3_counterexample :
    (grade_answer (mkSession .finished [wTeam] [wAns]) "t1" 1 1 true 5).1 =
      .ok ⟨"t1", 1, 1, "4", some true, 5⟩ ∧
    (grade_answer (mkSession .finished [wTeam] [wAns]) "t1" 1 1 true 5).2 ≠
      mkSession .finished [wTeam] [wAns] := by
  refine ⟨rfl, by decide⟩

/-- Witness instantiating `claim3_finished_terminal` on a concrete
`Finished` session. -/
theorem claim3_witness :
    submit_answer (mkSession .finished [wTeam] [wAns]) "t1" "9" =
      (.error (.invalidState "No active question to answer"),
       mkSession .finished [wTeam] [wAns]) ∧
    next_question wQs (mkSession .finished [wTeam] [wAns]) (some "pw") =
      (.error (.invalidState "Cannot advance to next question in current state"),
       mkSession .finished [wTeam] [wAns]) ∧
    findTeam (grade_answer (mkSession .finished [wTeam] [wAns]) "t1" 1 1 true 5).2.teams
        "t1" = some ⟨"Alpha", "t1", 5⟩ := by
  have h := claim3_finished_terminal wQs (mkSession .finished [wTeam] [wAns]) rfl
    "Beta" "t2" "t1" "9" 1 1 5
  refine ⟨h.2.2.2.1, h.2.2.2.2.2.1, ?_⟩
  have h7 := (h.2.2.2.2.2.2 wAns wTeam (by decide) (by decide)).2
  simpa [wTeam] using h7

/-- **C2 (amended).** On a `QuestionClosed` session with the correct
secret, `nextQuestion` advances within the round when the current question
number is less than the **count** of questions loaded for the current round
(not when a question with the next number exists); otherwise, when the
current round number is below the maximum loaded round number, it
increments the round by one (whether or not that round is loaded) and
resets the question number to 1; otherwise it sets the status to `Finished`
and returns no question.  In both advancing cases the status becomes
`InProgress` and the returned value is the lookup at the new cursor — which
is `none` when no question is loaded there. -/
theorem claim2_next_question (qs : List Question) (g : GameSession)
    (hst : g.status = GameStatus.question_closed) :
    (g.current_question < ((get_questions_for_round qs g.current_round).length : Int) →
        next_question qs g (some g.admin_password) =
          (.ok (get_question_by_round_and_num qs g.current_round (g.current_question + 1)),
           { g with current_question := g.current_question + 1,
                    status := GameStatus.in_progress })) ∧
    (¬ g.current_question < ((get_questions_for_round qs g.current_round).length : Int) →
        ∀ m, (get_rounds_for_game qs).max? = some m →
          (g.current_round < m →
              next_question qs g (some g.admin_password) =
                (.ok (get_question_by_round_and_num qs (g.current_round + 1) 1),
                 { g with current_round := g.current_round + 1, current_question := 1,
                          status := GameStatus.in_progress })) ∧
          (¬ g.current_round < m →
              next_question qs g (some g.admin_password) =
                (.ok none, { g with status := GameStatus.finished }))) := by
  constructor
  · intro hlt
    unfold next_question
    rw [if_neg (not_not.mpr rfl), if_neg (not_not.mpr hst), if_pos hlt]
  · intro hge m hm
    constructor
    · intro hr
      unfold next_question
      rw [if_neg (not_not.mpr rfl), if_neg (not_not.mpr hst), if_neg hge, hm]
      simp only [if_pos hr]
    · intro hr
      unfold next_question
      rw [if_neg (not_not.mpr rfl), if_neg (not_not.mpr hst), if_neg hge, hm]
      simp only [if_neg hr]

/-- Question set with a gap: round 1 holds questions numbered 1 and 3
(no question 2, no round 2). -/
def gapQs : List Question := [⟨1, 1, "q1", "a1"⟩, ⟨1, 3, "q3", "a3"⟩]

/-- Counterexample to C2 as stated: with questions numbered 1 and 3 in the
only round and the cursor at (1, 1), no question numbered 2 exists and no
further round exists, so the claim requires a transition to `Finished` with
no question; the code instead advances the cursor to (1, 2) (the count test
`1 < 2` passes), returns the `none` lookup, and sets status `InProgress`. -/
theorem claim2_counterexample :
    next_question gapQs (mkSession .question_closed [wTeam] []) (some "pw") =
      (.ok none,
       { mkSession .question_closed [wTeam] [] with current_question := 2,
                                                    status := GameStatus.in_progress }) ∧
    get_question_by_round_and_num gapQs 1 2 = none ∧
    get_rounds_for_game gapQs = [1] ∧
    (next_question gapQs (mkSession .question_closed [wTeam] []) (some "pw")).2.status ≠
      GameStatus.finished := by
  refine ⟨rfl, by decide, by decide, by decide⟩

/-- Witness instantiating `claim2_next_question` on a concrete session:
within-round advance at (1, 1) of a two-question round, and finish at
(1, 2). -/
theorem claim2_witness :
    next_question wQs (mkSession .question_closed [wTeam] []) (some "pw") =
      (.ok (get_question_by_round_and_num wQs 1 2),
       { mkSession .question_closed [wTeam] [] with current_question := 2,
                                                    status := GameStatus.in_progress }) ∧
    next_question wQs { mkSession .question_closed [wTeam] [] with current_question := 2 }
        (some "pw") =
      (.ok none,
       { mkSession .question_closed [wTeam] [] with current_question := 2,
                                                    status := GameStatus.finished }) := by
  constructor
  · have h := (claim2_next_question wQs (mkSession .question_closed [wTeam] []) rfl).1
      (by decide)
    simpa using h
  · have h := ((claim2_next_question wQs
      { mkSession .question_closed [wTeam] [] with current_question := 2 } rfl).2
      (by decide) 1 (by decide)).2 (by decide)
    simpa using h

theorem loadRows_first_bad (bad : CsvRow) (rest : List CsvRow) (msg : String)
    (hbad : parseRow bad = .error msg) :
    ∀ (good : List CsvRow) (start : Nat), (∀ r ∈ good, ∃ qq, parseRow r = .ok qq) →
      loadRows start (good ++ bad :: rest) = .error (.invalidRow (start + good.length + 2) msg)
  | [], start, _ => by
      simp only [List.nil_append]
      unfold loadRows
      rw [hbad]
      simp
  | r :: good', start, hgood => by
      obtain ⟨qq, hq⟩ := hgood r (List.mem_cons_self ..)
      show loadRows start (r :: (good' ++ bad :: rest)) = _
      unfold loadRows
      rw [hq,
        loadRows_first_bad bad rest msg hbad good' (start + 1)
          (fun x hx => hgood x (List.mem_cons_of_mem _ hx))]
      have : start + 1 + good'.length + 2 = start + (good'.length + 1) + 2 := by omega
      rw [this]
      rfl

/-- **C8 (amended).** Rows are parsed in file order, and the first row
failing record validation aborts the load with an error reporting index
`idx + 2`, where `idx` is the row's 0-based position in the data section —
that is, the 1-based row number counting the **header line as row 1**, so
the first data row after the header is reported as row 2 (not row 1 as the
claim stated). -/
theorem claim8_row_error_index (good : List CsvRow) (bad : CsvRow) (rest : List CsvRow)
    (msg : String) (hgood : ∀ r ∈ good, ∃ qq, parseRow r = .ok qq)
    (hbad : parseRow bad = .error msg) :
    load_questions_from_csv (good ++ bad :: rest) =
      .error (.invalidRow (good.length + 2) msg) := by
  unfold load_questions_from_csv
  rw [loadRows_first_bad bad rest msg hbad good 0 hgood]
  simp

/-- Counterexample to C8 as stated: a single-row source whose only data row
(0-based data index 0, hence "row 1" of the data section) has an empty
question is reported as row **2**, not row 1. -/
theorem claim8_counterexample :
    load_questions_from_csv [⟨"1", "1", "", "yes"⟩] =
      .error (.invalidRow 2 "Question cannot be empty") ∧ (2 : Nat) ≠ 1 := by
  exact ⟨rfl, by decide⟩

/-- Witness instantiating `claim8_row_error_index`: one valid data row
followed by an invalid one; the invalid row (data index 1) is reported as
row 3. -/
theorem claim8_witness :
    load_questions_from_csv [⟨"1", "1", "2+2", "4"⟩, ⟨"1", "0", "3+3", "6"⟩] =
      .error (.invalidRow 3 "Question number must be positive") := by
  have h := claim8_row_error_index [⟨"1", "1", "2+2", "4"⟩] ⟨"1", "0", "3+3", "6"⟩ []
    "Question number must be positive"
    (by
      intro r hr
      rw [List.mem_singleton] at hr
      subst hr
      exact ⟨⟨1, 1, "2+2", "4"⟩, rfl⟩)
    rfl
  simpa using h

/-- **C4.** In the `questionStarted` broadcast the field carrying the
stored correct answer is `"answer"`, and in the `answerSubmitted` dispatch
it is `"correct_answer"`; in every message list either handler produces,
any message carrying that field is addressed (via `"target_client"`) to a
client whose connection is flagged admin — no team-addressed copy ever
carries it. -/
theorem claim4_visibility (conns : List ClientConnection) (members : List String)
    (qs : List Question) (g : GameSession) (caller : String) (pw ans : Option String) :
    (∀ m ∈ (handle_start_question conns members qs g caller pw).1,
        hasKey m "answer" = true →
        ∃ t, targetOf m = some t ∧ isAdminClient conns t = true) ∧
    (∀ m ∈ (handle_submit_answer conns members qs g caller ans).1,
        hasKey m "correct_answer" = true →
        ∃ t, targetOf m = some t ∧ isAdminClient conns t = true) := by
  constructor
  · intro m hm hk
    unfold handle_start_question at hm
    split at hm
    · rw [List.mem_singleton] at hm
      subst hm
      simp [hasKey, mkError, List.lookup] at hk
    · split at hm
      · rw [List.mem_singleton] at hm
        subst hm
        simp [hasKey, mkError, List.lookup] at hk
      · split at hm
        · rw [List.mem_singleton] at hm
          subst hm
          simp [hasKey, mkError, List.lookup] at hk
        · rcases List.mem_filterMap.mp hm with ⟨cid, _, hf⟩
          rcases hfc : findConn conns cid with _ | tc
          · rw [hfc] at hf
            simp at hf
          · rw [hfc] at hf
            simp only [Option.map_some', Option.some.injEq] at hf
            by_cases hadm : tc.is_admin = true
            · rw [if_pos hadm] at hf
              subst hf
              exact ⟨cid, rfl, by simp [isAdminClient, hfc, hadm]⟩
            · rw [if_neg hadm] at hf
              subst hf
              simp [hasKey, List.lookup] at hk
  · intro m hm hk
    unfold handle_submit_answer at hm
    split at hm
    · rw [List.mem_singleton] at hm
      subst hm
      simp [hasKey, mkError, List.lookup] at hk
    · split at hm
      · rw [List.mem_singleton] at hm
        subst hm
        simp [hasKey, mkError, List.lookup] at hk
      · split at hm
        · rw [List.mem_singleton] at hm
          subst hm
          simp [hasKey, mkError, List.lookup] at hk
        · split at hm
          · rw [List.mem_singleton] at hm
            subst hm
            simp [hasKey, mkError, List.lookup] at hk
          · split at hm
            · rw [List.mem_singleton] at hm
              subst hm
              simp [hasKey, mkError, List.lookup] at hk
            · rcases List.mem_cons.mp hm with hconf | hmem
              · subst hconf
                simp [hasKey, List.lookup] at hk
              · rcases List.mem_filterMap.mp hmem with ⟨cid, _, hf⟩
                rcases hfc : findConn conns cid with _ | tc
                · rw [hfc] at hf
                  simp at hf
                · rw [hfc] at hf
                  simp only [Option.some_bind] at hf
                  by_cases hadm : tc.is_admin = true
                  · rw [if_pos hadm] at hf
                    rcases hft : findTeam _ _ with _ | team
                    · rw [hft] at hf
                      simp at hf
                    · rw [hft] at hf
                      simp only [Option.map_some', Option.some.injEq] at hf
                      subst hf
                      exact ⟨cid, rfl, by simp [isAdminClient, hfc, hadm]⟩
                  · rw [if_neg hadm] at hf
                    simp at hf

/-- Witness instantiating `claim4_visibility`: on a concrete broadcast the
admin's `questionStarted` copy (which carries `"answer"`) is addressed to
the admin client. -/
theorem claim4_witness :
    ∃ t, targetOf
        { event := "question_started",
          data := [("round", JVal.i 1), ("question_num", JVal.i 1),
                   ("question", JVal.s "2+2"), ("answer", JVal.s "4"),
                   ("target_client", JVal.s "adm")] } = some t ∧
      isAdminClient wConns t = true :=
  (claim4_visibility wConns ["adm"] wQs (mkSession .in_progress [wTeam] []) "adm"
    (some "pw") none).1 _ (by decide) (by decide)

/-- **C10.** On a successful `submitAnswer` dispatch the stored answer
record holds the payload text with leading/trailing whitespace stripped,
while the `answerSubmitted` confirmation returned first to the submitting
team echoes the original un-stripped payload text. -/
theorem claim10_submit_echo (conns : List ClientConnection) (members : List String)
    (qs : List Question) (g g' : GameSession) (caller tid text : String)
    (c : ClientConnection) (a : Answer)
    (hc : findConn conns caller = some c) (htid : c.team_id = some tid)
    (hne : (text == "") = false) (hsub : submit_answer g tid text = (.ok a, g')) :
    (handle_submit_answer conns members qs g caller (some text)).2 = g' ∧
    g'.answers = g.answers ++ [a] ∧
    a.answer_text = pyStrip text ∧
    (handle_submit_answer conns members qs g caller (some text)).1.head? =
      some { event := "answer_submitted", data := [("answer", JVal.s text)] } := by
  obtain ⟨hst, hteam, hnone, ha, hg'⟩ := submit_answer_ok g tid text a g' hsub
  refine ⟨?_, by rw [hg'], by rw [ha], ?_⟩
  · simp only [handle_submit_answer, hc, htid, hne, Bool.false_eq_true, if_false, hsub]
  · simp only [handle_submit_answer, hc, htid, hne, Bool.false_eq_true, if_false, hsub,
      List.head?_cons]

/-- Fixture connections: one team client and one admin client. -/
def wConnTeam : List ClientConnection := [⟨"cl1", some "t1", false⟩, ⟨"adm", none, true⟩]

/-- Witness instantiating `claim10_submit_echo`: submitting `" 4 "` stores
`"4"` in the answer record while the confirmation echoes `" 4 "`. -/
theorem claim10_witness :
    (handle_submit_answer wConnTeam ["cl1", "adm"] wQs
        (mkSession .question_active [wTeam] []) "cl1" (some " 4 ")).2.answers = [wAns] ∧
    wAns.answer_text = pyStrip " 4 " ∧
    (handle_submit_answer wConnTeam ["cl1", "adm"] wQs
        (mkSession .question_active [wTeam] []) "cl1" (some " 4 ")).1.head? =
      some { event := "answer_submitted", data := [("answer", JVal.s " 4 ")] } := by
  have h := claim10_submit_echo wConnTeam ["cl1", "adm"] wQs
    (mkSession .question_active [wTeam] []) (mkSession .question_active [wTeam] [wAns])
    "cl1" "t1" " 4 " ⟨"cl1", some "t1", false⟩ wAns rfl rfl (by decide) rfl
  refine ⟨?_, h.2.2.1, h.2.2.2⟩
  rw [h.1]
  rfl

end TriviaApp
